import Mathlib

/-!
Verification of the MJSRecon code-hosting reconnaissance engine.

This file shallowly embeds the parts of the repository relevant to the
frozen claims: the rate-limit-aware GitHub API client with its disk cache
(`src/src/scanners/github/github.py`), repository discovery with
deduplication, ranking and scan-budget truncation, the clone/scan/cleanup
unit with its three secret detectors, the batch orchestrator, and the
corresponding pieces of `src/reconnaissance/github_scanner.py` and
`src/gitlab/gitlab_scanner.py`.  Stateful Python code becomes explicit
state passing (the disk is a list of directory names, the cache a map from
url to slot); subprocess and network effects become explicit outcome
parameters consumed by the embedded control flow.
-/

namespace MJSRecon

/-- Body of a GitHub API response. `GJson.empty` models the empty dict
returned by the client on failure; `GJson.val s` models any other JSON
document, abstracted as an opaque string. -/
inductive GJson where
  | empty : GJson
  | val (s : String) : GJson
deriving DecidableEq

/-- One observed HTTP response, as `_make_github_request` inspects it:
the status code, the `X-RateLimit-Remaining` header when present, the
wait time computed from `X-RateLimit-Reset` minus the current time, and
the parsed body. -/
structure HttpResp where
  status : Nat
  rlRemaining : Option Nat
  waitTime : Int
  body : GJson
deriving DecidableEq

/-- The condition under which `_make_github_request` sleeps and re-enters
itself (github.py lines 159-169): status 403, the rate-limit header is
present and reads 0, and the computed wait time is positive. -/
def isRateLimitRetry (r : HttpResp) : Bool :=
  r.status == 403 && r.rlRemaining == some 0 && decide (0 < r.waitTime)

/-- Failure of one request attempt: an HTTP error status raised by
`raise_for_status`, or a network-level `RequestException`. -/
inductive ReqErr where
  | httpError (status : Nat)
  | networkFailure
deriving DecidableEq

/-- The attempt loop of `_make_github_request` (github.py lines 155-178)
on a stream of responses, one consumed per issued request.  On the
rate-limit condition the code sleeps and recurses into itself on the same
url; an exhausted stream models `requests.get` raising a network error.
`raise_for_status` raises for any status of 400 or above; otherwise the
body is returned. -/
def requestAttempts : List HttpResp → Except ReqErr GJson
  | [] => Except.error ReqErr.networkFailure
  | r :: rest =>
    if isRateLimitRetry r then requestAttempts rest
    else if r.status < 400 then Except.ok r.body
    else Except.error (ReqErr.httpError r.status)

/-- Number of HTTP requests `_make_github_request` issues on a given
response stream: one per attempt, and a further attempt after every
rate-limit signal. -/
def requestCount : List HttpResp → Nat
  | [] => 1
  | r :: rest => if isRateLimitRetry r then 1 + requestCount rest else 1

/-- `_make_github_request` (github.py lines 140-182): a cached value is
returned outright; otherwise the attempt loop runs and the surrounding
`except requests.exceptions.RequestException` turns every raised error
into the empty dict, so the caller never sees an exception. -/
def makeGithubRequest (cached : Option GJson) (responses : List HttpResp) : GJson :=
  match cached with
  | some d => d
  | none =>
    match requestAttempts responses with
    | Except.ok j => j
    | Except.error _ => GJson.empty

/-- One slot of the disk cache: a pickled record with its payload and
write timestamp, or a file whose unpickling raises (corrupt). -/
inductive CacheSlot where
  | entry (data : GJson) (timestamp : Nat)
  | corrupt
deriving DecidableEq

/-- The cache directory, as a map from request url to slot.  The source
keys slots by the md5 hex digest of the url; the hash is modeled as an
injective key map, so the url itself serves as the key. -/
def CacheState : Type := String → Option CacheSlot

/-- `_get_cached_response` (github.py lines 116-129): a present entry is
returned only when less than 3600 seconds old (the TTL is the literal
3600 in the source); a missing file, an expired entry, or a slot whose
unpickling raises all yield `none`. -/
def getCachedResponse (cache : CacheState) (url : String) (now : Nat) : Option GJson :=
  match cache url with
  | none => none
  | some CacheSlot.corrupt => none
  | some (CacheSlot.entry data timestamp) =>
      if now - timestamp < 3600 then some data else none

/-- `_cache_response` (github.py lines 131-138): overwrites the slot for
the url with the payload and the current time. -/
def cacheResponse (cache : CacheState) (url : String) (data : GJson) (now : Nat) : CacheState :=
  fun u => if u = url then some (CacheSlot.entry data now) else cache u

/-- One normalized repository record as built by `search_repositories`
(github.py lines 222-239), restricted to the fields the claims touch:
the canonical identity `full_name`, the popularity signal and the clone
url. -/
structure RepoInfo where
  name : String
  stars : Nat
  cloneUrl : String
deriving DecidableEq

/-- One GitLab project as accumulated by `GitLabRecon.run`.  The code
stores the full `get_project_details` JSON (gitlab_scanner.py lines
329-331), which carries the `star_count` popularity signal; the project
id is optional because the code reads it with `.get`. -/
structure ProjectInfo where
  projId : Option Nat
  projName : String
  starCount : Nat
deriving DecidableEq

/-- The deduplication loop shared by `search_repositories` (github.py
lines 257-266) and `GitLabRecon.run` (gitlab_scanner.py lines 338-344):
walk the accumulated list, keep an element only when its key has not
been seen, and record the key as seen. -/
def dedupLoop {α κ : Type} [DecidableEq κ] (key : α → κ) (seen : List κ) :
    List α → List α
  | [] => []
  | x :: xs =>
    if key x ∈ seen then dedupLoop key seen xs
    else x :: dedupLoop key (key x :: seen) xs

/-- `unique_repos` of `search_repositories`: deduplicate the search
results by the repository `name` (the canonical `full_name`). -/
def uniqueRepos (repositories : List RepoInfo) : List RepoInfo :=
  dedupLoop (fun r => r.name) [] repositories

/-- `unique_projects` of `GitLabRecon.run`: deduplicate the accumulated
projects by the project id. -/
def uniqueProjects (allProjects : List ProjectInfo) : List ProjectInfo :=
  dedupLoop (fun p => p.projId) [] allProjects

/-- The ranking step of `run_recon` (github.py line 889):
`sorted(repositories, key=lambda x: x.get('stars', 0), reverse=True)`.
Python `sorted` is a stable sort; with `reverse=True` it is the stable
descending sort by the key, embedded as insertion sort under the
relation `b.stars ≤ a.stars`. -/
def sortByStars (repositories : List RepoInfo) : List RepoInfo :=
  List.insertionSort (fun a b => b.stars ≤ a.stars) repositories

/-- `top_repos` of `run_recon` (github.py line 889): rank by descending
stars, then keep at most `max_repos_to_scan` entries. -/
def topRepos (repositories : List RepoInfo) (maxReposToScan : Nat) : List RepoInfo :=
  (sortByStars repositories).take maxReposToScan

/-- `projects_to_scan` of `GitLabRecon.run` (gitlab_scanner.py line 349):
the deduplicated projects truncated to the scan budget, in discovery
order (the GitLab scanner applies no popularity ranking). -/
def projectsToScan (allProjects : List ProjectInfo) (maxReposToScan : Nat) : List ProjectInfo :=
  (uniqueProjects allProjects).take maxReposToScan

/-- One finding dict as built by the scanning functions, restricted to a
uniform field set: the source tool tag, location, the matched secret,
the tool-specific detail (`reason`, `rule` or `pattern_type`) and the
repository it came from. -/
structure Secret where
  tool : String
  file : String
  line : String
  commit : String
  secretValue : String
  detail : String
  repoName : String
deriving DecidableEq

/-- One line of line-delimited detector stdout: either a record carrying
the fields the parser reads, or a line on which `json.loads` raises. -/
inductive ToolLine where
  | malformed
  | record (path line commit raw reason : String)
deriving DecidableEq

/-- Completed subprocess outcome: exit code and parsed stdout lines.
The stdout string is non-empty exactly when the line list is. -/
structure ProcResult where
  returncode : Int
  stdoutLines : List ToolLine
deriving DecidableEq

/-- The per-line body of `scan_with_trufflehog` (github.py lines
393-407): a JSON line becomes a finding tagged `trufflehog`; a line on
which `json.loads` raises is skipped by the `continue`. -/
def parseTrufflehogLine (repoName : String) : ToolLine → Option Secret
  | ToolLine.malformed => none
  | ToolLine.record path line commit raw reason =>
      some { tool := "trufflehog", file := path, line := line, commit := commit,
             secretValue := raw, detail := reason, repoName := repoName }

/-- `scan_with_trufflehog` (github.py lines 378-416): nothing without
the tool; findings parsed only under `returncode == 0 and stdout`. -/
def scanWithTrufflehog (available : Bool) (repoName : String) (res : ProcResult) : List Secret :=
  if !available then []
  else if res.returncode = 0 ∧ res.stdoutLines ≠ [] then
    res.stdoutLines.filterMap (parseTrufflehogLine repoName)
  else []

/-- One gitleaks finding as read from its JSON report. -/
structure GitleaksLeak where
  leakFile : String
  leakLine : String
  leakCommit : String
  leakSecret : String
  leakRule : String
deriving DecidableEq

/-- The gitleaks stdout as `scan_with_gitleaks` sees it: empty, a
non-empty document on which `json.loads` raises, or a parsed array. -/
inductive GitleaksStdout where
  | emptyOut
  | malformed
  | parsed (leaks : List GitleaksLeak)
deriving DecidableEq

/-- `scan_with_gitleaks` (github.py lines 418-455): findings recorded
only under `returncode == 0 and stdout`; a document on which
`json.loads` raises contributes nothing (the `except` passes). -/
def scanWithGitleaks (available : Bool) (repoName : String) (returncode : Int)
    (stdout : GitleaksStdout) : List Secret :=
  if !available then []
  else if returncode = 0 ∧ stdout ≠ GitleaksStdout.emptyOut then
    match stdout with
    | GitleaksStdout.parsed leaks =>
        leaks.map (fun leak =>
          { tool := "gitleaks", file := leak.leakFile, line := leak.leakLine,
            commit := leak.leakCommit, secretValue := leak.leakSecret,
            detail := leak.leakRule, repoName := repoName })
    | _ => []
  else []

/-- `GitLabRecon.run_trufflehog` (gitlab_scanner.py lines 194-222): the
same `returncode == 0 and stdout` gate as the GitHub scanner, with the
gitlab field names; tagged `trufflehog`. -/
def gitlabRunTrufflehog (repoName : String) (res : ProcResult) : List Secret :=
  if res.returncode = 0 ∧ res.stdoutLines ≠ [] then
    res.stdoutLines.filterMap (parseTrufflehogLine repoName)
  else []

/-- The parse loop of `clone_and_scan_repo` (github_scanner.py lines
92-103): the whole loop sits in one `try`, so the first line on which
`json.loads` raises aborts parsing, keeping the findings already
appended. -/
def reconParseTrufflehogLines (repoName : String) : List ToolLine → List Secret
  | [] => []
  | ToolLine.malformed :: _ => []
  | ToolLine.record path line commit raw reason :: rest =>
      { tool := "trufflehog", file := path, line := line, commit := commit,
        secretValue := raw, detail := reason, repoName := repoName }
        :: reconParseTrufflehogLines repoName rest

/-- The trufflehog step of `clone_and_scan_repo` (github_scanner.py
lines 88-103): the only gate is `if result.stdout:` — the exit code of
the subprocess is never consulted. -/
def reconTrufflehogSecrets (repoName : String) (res : ProcResult) : List Secret :=
  if res.stdoutLines ≠ [] then reconParseTrufflehogLines repoName res.stdoutLines
  else []

/-- One regex match as found by `scan_with_custom_patterns` (github.py
lines 457-494). -/
structure PatternMatch where
  patternType : String
  matchFile : String
  lineNum : Nat
  matched : String
deriving DecidableEq

/-- The finding construction of `scan_with_custom_patterns` (github.py
lines 477-485): every match becomes a record tagged `custom_patterns`
(the `line_content` field is omitted here as no claim touches it). -/
def customScanFindings (repoName : String) (found : List PatternMatch) : List Secret :=
  found.map (fun m =>
    { tool := "custom_patterns", file := m.matchFile, line := toString m.lineNum,
      commit := "", secretValue := m.matched, detail := m.patternType,
      repoName := repoName })

/-- Outcome of one detector future as `clone_and_analyze_repo` collects
it: either the detector completed and returned its findings, or
`future.result` raised (failure or collection timeout) and the
surrounding `except` logged and moved on. -/
inductive DetectorOutcome where
  | completed (findings : List Secret)
  | failed (msg : String)
deriving DecidableEq

/-- The findings a detector outcome contributes: those of a completed
detector, nothing from a failed one. -/
def detectorFindings : DetectorOutcome → List Secret
  | DetectorOutcome.completed xs => xs
  | DetectorOutcome.failed _ => []

/-- The collection phase of `clone_and_analyze_repo` (github.py lines
811-831): `results['secrets']` starts empty and each of the three
detector futures is collected in its own `try`, extending the list on
success and merely logging on failure, so no detector's failure touches
a sibling's contribution. -/
def mergeScanResults (truffleRes gitleaksRes customRes : DetectorOutcome) : List Secret :=
  let s0 : List Secret := []
  let s1 :=
    match truffleRes with
    | DetectorOutcome.completed xs => s0 ++ xs
    | DetectorOutcome.failed _ => s0
  let s2 :=
    match gitleaksRes with
    | DetectorOutcome.completed xs => s1 ++ xs
    | DetectorOutcome.failed _ => s1
  let s3 :=
    match customRes with
    | DetectorOutcome.completed xs => s2 ++ xs
    | DetectorOutcome.failed _ => s2
  s3

/-- The scratch directory name for a repository,
`repo_name.replace('/', '_')` (github.py line 351). -/
def dirName (repoName : String) : String :=
  String.mk (repoName.data.map (fun c => if c = '/' then '_' else c))

/-- Outcome of the `git clone` subprocess. -/
inductive CloneOutcome where
  | ok
  | gitFailure
  | timeout
deriving DecidableEq

/-- The disk, as the set of clone directories present, listed by name. -/
def ensureDir (disk : List String) (d : String) : List String :=
  if d ∈ disk then disk else d :: disk

/-- `clone_repository` (github.py lines 348-376).  `ensure_dir` creates
the directory first; a pre-existing directory is reused ("already
cloned"); then the shallow clone runs.  On a non-zero exit, a timeout or
an exception the function returns `None` without removing the directory
it created. -/
def cloneRepository (disk : List String) (repoName : String) (outcome : CloneOutcome) :
    Option String × List String :=
  let d := dirName repoName
  let disk1 := ensureDir disk d
  if d ∈ disk then (some d, disk1)
  else
    match outcome with
    | CloneOutcome.ok => (some d, disk1)
    | CloneOutcome.gitFailure => (none, disk1)
    | CloneOutcome.timeout => (none, disk1)

/-- The per-repository result dict of `clone_and_analyze_repo`: the
clone-failed dict carries no findings; a completed dict carries the
merged detector findings. -/
structure RepoScanResult where
  resRepoName : String
  status : String
  secrets : List Secret
deriving DecidableEq

/-- `clone_and_analyze_repo` (github.py lines 782-854) as a transition
on the disk: a failed clone returns the `clone_failed` dict at once,
leaving the directory `clone_repository` created; after a successful
clone the three detectors run (each failure isolated inside
`mergeScanResults`) and `shutil.rmtree` then removes the directory. -/
def cloneAndAnalyzeRepo (disk : List String) (repo : RepoInfo) (cloneOutcome : CloneOutcome)
    (truffleRes gitleaksRes customRes : DetectorOutcome) : RepoScanResult × List String :=
  match cloneRepository disk repo.name cloneOutcome with
  | (none, disk1) =>
      ({ resRepoName := repo.name, status := "clone_failed", secrets := [] }, disk1)
  | (some d, disk1) =>
      ({ resRepoName := repo.name, status := "completed",
         secrets := mergeScanResults truffleRes gitleaksRes customRes },
       disk1.erase d)

/-- The effectful inputs of one repository unit inside `run_recon`: the
clone outcome and the three detector outcomes. -/
structure UnitOutcome where
  clone : CloneOutcome
  truffleRes : DetectorOutcome
  gitleaksRes : DetectorOutcome
  customRes : DetectorOutcome

/-- The result dict one unit hands back to the aggregation loop of
`run_recon`; each unit clones into its own fresh scratch directory. -/
def analyzeRepoResult (repo : RepoInfo) (u : UnitOutcome) : RepoScanResult :=
  (cloneAndAnalyzeRepo [] repo u.clone u.truffleRes u.gitleaksRes u.customRes).1

/-- The summary counts `run_recon` returns to the workflow layer
(github.py lines 932-938, restricted to the three counts of the
collaborator contract). -/
structure ReconSummary where
  reposFound : Nat
  reposScanned : Nat
  secretsFound : Nat
deriving DecidableEq

/-- The aggregation loop of `run_recon` (github.py lines 904-925): for
each completed future, `result['secrets']` extends the global list; on
the clone-failed dict that key access raises and the `except` skips the
unit.  Counts are order-independent, so the nondeterministic
`as_completed` order is modeled as list order. -/
def collectSecretsLoop (acc : List Secret) : List RepoScanResult → List Secret
  | [] => acc
  | res :: rest =>
      if res.status = "completed" then collectSecretsLoop (acc ++ res.secrets) rest
      else collectSecretsLoop acc rest

/-- `run_recon` (github.py lines 856-938): search (already deduplicated),
rank and truncate to the scan budget, run the units, aggregate the
findings onto those of the optional trufflehog org scan, and return the
summary counts.  `repos_found` is the length of the deduplicated search
result and `repos_scanned` the length of `top_repos`. -/
def runRecon (repositories : List RepoInfo) (maxReposToScan : Nat)
    (orgScanSecrets : List Secret) (outcome : RepoInfo → UnitOutcome) : ReconSummary :=
  let top := topRepos repositories maxReposToScan
  let unitResults := top.map (fun r => analyzeRepoResult r (outcome r))
  let collected := collectSecretsLoop [] unitResults
  { reposFound := repositories.length
    reposScanned := top.length
    secretsFound := (orgScanSecrets ++ collected).length }

/-- The units of a run whose clone actually succeeded, hence were
actually scanned; the summary does not report this number. -/
def successfulScanCount (repositories : List RepoInfo) (maxReposToScan : Nat)
    (outcome : RepoInfo → UnitOutcome) : Nat :=
  ((topRepos repositories maxReposToScan).filter
    (fun r => (analyzeRepoResult r (outcome r)).status == "completed")).length

/-- The findings of the detectors of those units whose clone succeeded:
the ground truth the reported `secrets_found` count is compared
against. -/
def actualFindings (repositories : List RepoInfo) (maxReposToScan : Nat)
    (outcome : RepoInfo → UnitOutcome) : List Secret :=
  (((topRepos repositories maxReposToScan).filter
      (fun r => (analyzeRepoResult r (outcome r)).status == "completed")).map
    (fun r => (analyzeRepoResult r (outcome r)).secrets)).flatten

/-- Python `str.split(sep)` on a character separator, over the character
list of the string. -/
def pySplitOn (sep : Char) : List Char → List (List Char)
  | [] => [[]]
  | c :: cs =>
    if c = sep then [] :: pySplitOn sep cs
    else
      match pySplitOn sep cs with
      | [] => [[c]]
      | p :: ps => (c :: p) :: ps

/-- The target truncation of `search_repositories` (github.py line 194):
`self.target.split('.')[0] if '.' in self.target else self.target`.
The result is what replaces the query template placeholder. -/
def searchOrgName (target : List Char) : List Char :=
  if '.' ∈ target then (pySplitOn '.' target).headD [] else target

/-- The identical truncation in `scan_with_trufflehog_github_org`
(github.py line 623), producing the organization name for the org-level
scan. -/
def truffleOrgName (target : List Char) : List Char :=
  if '.' ∈ target then (pySplitOn '.' target).headD [] else target

lemma mergeScanResults_eq (t g c : DetectorOutcome) :
    mergeScanResults t g c =
      detectorFindings t ++ detectorFindings g ++ detectorFindings c := by
  cases t <;> cases g <;> cases c <;> simp [mergeScanResults, detectorFindings]

lemma tool_of_parseTrufflehogLine (repoName : String) (tl : ToolLine) (s : Secret)
    (h : parseTrufflehogLine repoName tl = some s) : s.tool = "trufflehog" := by
  cases tl with
  | malformed => simp [parseTrufflehogLine] at h
  | record p l c r y =>
      simp only [parseTrufflehogLine, Option.some_inj] at h
      rw [← h]

/-- A sample rate-limited response: status 403, remaining quota 0, a
2-second wait until reset. -/
def rlResp : HttpResp :=
  { status := 403, rlRemaining := some 0, waitTime := 2, body := GJson.empty }

/-- A sample successful response carrying a payload. -/
def okResp : HttpResp :=
  { status := 200, rlRemaining := none, waitTime := 0, body := GJson.val "payload" }

/-- C1, counterexample.  The claim says a second consecutive rate-limit
signal on the same call returns an empty result, with at most one retry.
On the stream rate-limit, rate-limit, success, `_make_github_request`
instead issues three requests (two retries) and returns the third
response's payload rather than the empty result. -/
theorem rate_limit_two_signals_cex :
    makeGithubRequest none [rlResp, rlResp, okResp] = GJson.val "payload" ∧
    makeGithubRequest none [rlResp, rlResp, okResp] ≠ GJson.empty ∧
    requestCount [rlResp, rlResp, okResp] = 3 := by decide

/-- C1, amended.  On a rate-limit signal (HTTP 403 with remaining quota
0 and a positive wait) the client sleeps and re-enters itself with no
retry bound: `n` consecutive rate-limit signals produce `n` retries, and
the call returns whatever the first non-rate-limited attempt yields.  A
plain HTTP 429 without that header condition is not retried at all and
returns the empty result. -/
theorem rate_limit_retry_unbounded (r : HttpResp) (hr : isRateLimitRetry r = true)
    (n : Nat) (rest : List HttpResp) (r2 : HttpResp) (h429 : r2.status = 429) :
    requestAttempts (List.replicate n r ++ rest) = requestAttempts rest ∧
    requestCount (List.replicate n r ++ rest) = n + requestCount rest ∧
    isRateLimitRetry r2 = false ∧
    makeGithubRequest none (r2 :: rest) = GJson.empty := by
  have hf : isRateLimitRetry r2 = false := by
    simp [isRateLimitRetry, h429]
  refine ⟨?_, ?_, hf, ?_⟩
  · induction n with
    | zero => simp
    | succ k ih => simpa [List.replicate_succ, requestAttempts, hr] using ih
  · induction n with
    | zero => simp
    | succ k ih =>
        have hstep : requestCount (r :: (List.replicate k r ++ rest)) =
            1 + requestCount (List.replicate k r ++ rest) := by
          simp [requestCount, hr]
        rw [List.replicate_succ, List.cons_append, hstep, ih]
        omega
  · have hlt : ¬ r2.status < 400 := by omega
    simp [makeGithubRequest, requestAttempts, hf, hlt]

/-- C1, witness for the amended theorem at a concrete stream: two
consecutive rate-limit signals produce two retries and the successful
third attempt's payload, and a concrete HTTP 429 returns empty
unretried. -/
theorem rate_limit_retry_unbounded_witness :
    requestAttempts (List.replicate 2 rlResp ++ [okResp]) = requestAttempts [okResp] ∧
    requestCount (List.replicate 2 rlResp ++ [okResp]) = 2 + requestCount [okResp] ∧
    isRateLimitRetry { status := 429, rlRemaining := none, waitTime := 0, body := GJson.empty } = false ∧
    makeGithubRequest none
      ({ status := 429, rlRemaining := none, waitTime := 0, body := GJson.empty } :: [okResp]) =
      GJson.empty :=
  rate_limit_retry_unbounded rlResp (by decide) 2 [okResp]
    { status := 429, rlRemaining := none, waitTime := 0, body := GJson.empty } rfl

/-- C7: every request whose next response is a non-2xx error status
outside the rate-limit-retry condition yields the empty result through
the catch-all handler (never an exception), the attempt loop surfacing
it only as a caught error value; a network-level failure (exhausted
stream) equally yields the empty result. -/
theorem non2xx_or_network_failure_returns_empty (r : HttpResp) (rest : List HttpResp)
    (hrl : isRateLimitRetry r = false) (hst : 400 ≤ r.status) :
    makeGithubRequest none (r :: rest) = GJson.empty ∧
    requestAttempts (r :: rest) = Except.error (ReqErr.httpError r.status) ∧
    makeGithubRequest none [] = GJson.empty := by
  have hlt : ¬ r.status < 400 := by omega
  refine ⟨?_, ?_, rfl⟩ <;> simp [makeGithubRequest, requestAttempts, hrl, hlt]

/-- C7, witness at a concrete 500 response. -/
theorem non2xx_or_network_failure_returns_empty_witness :
    makeGithubRequest none
      [{ status := 500, rlRemaining := none, waitTime := 0, body := GJson.val "boom" }] =
      GJson.empty ∧
    requestAttempts
      [({ status := 500, rlRemaining := none, waitTime := 0, body := GJson.val "boom" } : HttpResp)] =
      Except.error (ReqErr.httpError ({ status := 500, rlRemaining := none, waitTime := 0, body := GJson.val "boom" } : HttpResp).status) ∧
    makeGithubRequest none [] = GJson.empty :=
  non2xx_or_network_failure_returns_empty
    { status := 500, rlRemaining := none, waitTime := 0, body := GJson.val "boom" } []
    (by decide) (by decide)

/-- C6: an immediate `get` after `put` returns the stored payload; a
`get` 3600 seconds or more after the `put` misses; a corrupt slot is a
miss rather than an error. -/
theorem cache_roundtrip_ttl_corrupt (cache : CacheState) (url : String) (v : GJson)
    (t tLater : Nat) :
    getCachedResponse (cacheResponse cache url v t) url t = some v ∧
    (t + 3600 ≤ tLater → getCachedResponse (cacheResponse cache url v t) url tLater = none) ∧
    (cache url = some CacheSlot.corrupt → getCachedResponse cache url t = none) := by
  refine ⟨?_, ?_, ?_⟩
  · simp [getCachedResponse, cacheResponse]
  · intro h
    have hcond : ¬ (tLater - t < 3600) := by omega
    simp [getCachedResponse, cacheResponse, hcond]
  · intro h
    simp [getCachedResponse, h]

/-- A cache whose every slot unpickles to an exception. -/
def corruptCache : CacheState := fun _ => some CacheSlot.corrupt

/-- C6, witness at a concrete key, payload and pair of times. -/
theorem cache_roundtrip_ttl_corrupt_witness :
    getCachedResponse (cacheResponse corruptCache "u" (GJson.val "d") 5) "u" 5 =
      some (GJson.val "d") ∧
    getCachedResponse (cacheResponse corruptCache "u" (GJson.val "d") 5) "u" 3605 = none ∧
    getCachedResponse corruptCache "u" 5 = none :=
  ⟨(cache_roundtrip_ttl_corrupt corruptCache "u" (GJson.val "d") 5 3605).1,
   (cache_roundtrip_ttl_corrupt corruptCache "u" (GJson.val "d") 5 3605).2.1 (by omega),
   (cache_roundtrip_ttl_corrupt corruptCache "u" (GJson.val "d") 5 3605).2.2 rfl⟩

/-- C5: the pipeline's merge is the union of the findings of the
detectors that completed; a failed or timed-out detector removes only
its own contribution, never a sibling's; and every finding carries its
source tool tag. -/
theorem detector_failure_isolated (truffleRes gitleaksRes customRes : DetectorOutcome)
    (msg : String) (available : Bool) (repoName : String) (res : ProcResult)
    (rc : Int) (gout : GitleaksStdout) (found : List PatternMatch) :
    mergeScanResults truffleRes gitleaksRes customRes =
      detectorFindings truffleRes ++ detectorFindings gitleaksRes ++
        detectorFindings customRes ∧
    mergeScanResults (DetectorOutcome.failed msg) gitleaksRes customRes =
      detectorFindings gitleaksRes ++ detectorFindings customRes ∧
    (∀ s ∈ scanWithTrufflehog available repoName res, s.tool = "trufflehog") ∧
    (∀ s ∈ scanWithGitleaks available repoName rc gout, s.tool = "gitleaks") ∧
    (∀ s ∈ customScanFindings repoName found, s.tool = "custom_patterns") := by
  refine ⟨mergeScanResults_eq _ _ _, ?_, ?_, ?_, ?_⟩
  · simp [mergeScanResults_eq, detectorFindings]
  · intro s hs
    simp only [scanWithTrufflehog] at hs
    split at hs
    · simp at hs
    · split at hs
      · obtain ⟨tl, _, h⟩ := List.mem_filterMap.mp hs
        exact tool_of_parseTrufflehogLine _ _ _ h
      · simp at hs
  · intro s hs
    simp only [scanWithGitleaks] at hs
    split at hs
    · simp at hs
    · split at hs
      · cases gout with
        | emptyOut => simp at hs
        | malformed => simp at hs
        | parsed leaks =>
            obtain ⟨leak, _, h⟩ := List.mem_map.mp hs
            rw [← h]
      · simp at hs
  · intro s hs
    obtain ⟨m, _, h⟩ := List.mem_map.mp hs
    rw [← h]

/-- A sample trufflehog subprocess outcome carrying one finding line. -/
def demoTruffleProc : ProcResult :=
  { returncode := 0,
    stdoutLines := [ToolLine.record "config/.env" "7" "abc123" "AKIAXXXX" "aws-key"] }

/-- The finding parsed from `demoTruffleProc`. -/
def demoTruffleSecret : Secret :=
  { tool := "trufflehog", file := "config/.env", line := "7", commit := "abc123",
    secretValue := "AKIAXXXX", detail := "aws-key", repoName := "acme/app" }

/-- C5, witness: with the trufflehog future failed, the pipeline still
returns the completed gitleaks findings, and a concrete parsed finding
carries its tool tag. -/
theorem detector_failure_isolated_witness :
    mergeScanResults (DetectorOutcome.failed "timeout")
      (DetectorOutcome.completed [demoTruffleSecret]) (DetectorOutcome.completed []) =
      [demoTruffleSecret] ∧
    demoTruffleSecret.tool = "trufflehog" := by
  have h := detector_failure_isolated (DetectorOutcome.failed "timeout")
    (DetectorOutcome.completed [demoTruffleSecret]) (DetectorOutcome.completed [])
    "timeout" true "acme/app" demoTruffleProc 0 GitleaksStdout.emptyOut []
  refine ⟨?_, ?_⟩
  · have h2 := h.2.1
    simpa [detectorFindings] using h2
  · exact h.2.2.1 demoTruffleSecret (by decide)

lemma countP_dedupLoop {α κ : Type} [DecidableEq κ] (key : α → κ) (k : κ) :
    ∀ (l : List α) (seen : List κ),
      (dedupLoop key seen l).countP (fun x => decide (key x = k)) =
        if k ∈ seen then 0 else if l.any (fun x => decide (key x = k)) then 1 else 0 := by
  intro l
  induction l with
  | nil => intro seen; simp [dedupLoop]
  | cons x xs ih =>
      intro seen
      by_cases hx : key x ∈ seen
      · rw [show dedupLoop key seen (x :: xs) = dedupLoop key seen xs from by
          simp [dedupLoop, hx]]
        rw [ih seen]
        by_cases hk : k ∈ seen
        · simp [hk]
        · have hxk : ¬ (key x = k) := fun he => hk (he ▸ hx)
          simp [hk, hxk, List.any_cons]
      · rw [show dedupLoop key seen (x :: xs) = x :: dedupLoop key (key x :: seen) xs from by
          simp [dedupLoop, hx]]
        rw [List.countP_cons, ih (key x :: seen)]
        by_cases hk : key x = k
        · subst hk
          simp [hx, List.any_cons]
        · have hk2 : ¬ (k = key x) := fun he => hk he.symm
          simp [hk, hk2, List.any_cons, List.mem_cons]

lemma find?_of_mem_dedupLoop {α κ : Type} [DecidableEq κ] (key : α → κ) :
    ∀ (l : List α) (seen : List κ) (x : α), x ∈ dedupLoop key seen l →
      key x ∉ seen ∧ l.find? (fun y => decide (key y = key x)) = some x := by
  intro l
  induction l with
  | nil => intro seen x hx; simp [dedupLoop] at hx
  | cons a as ih =>
      intro seen x hx
      by_cases ha : key a ∈ seen
      · rw [show dedupLoop key seen (a :: as) = dedupLoop key seen as from by
          simp [dedupLoop, ha]] at hx
        obtain ⟨h1, h2⟩ := ih seen x hx
        refine ⟨h1, ?_⟩
        have hne : ¬ (decide (key a = key x) = true) := by
          simp only [decide_eq_true_eq]
          exact fun he => h1 (he ▸ ha)
        exact (List.find?_cons_of_neg as hne).trans h2
      · rw [show dedupLoop key seen (a :: as) = a :: dedupLoop key (key a :: seen) as from by
          simp [dedupLoop, ha]] at hx
        rcases List.mem_cons.mp hx with h | h
        · subst h
          exact ⟨ha, List.find?_cons_of_pos _ (by simp)⟩
        · obtain ⟨h1, h2⟩ := ih (key a :: seen) x h
          have hne : key x ≠ key a := fun he => h1 (by simp [he])
          refine ⟨fun hc => h1 (List.mem_cons_of_mem _ hc), ?_⟩
          have hne2 : ¬ (decide (key a = key x) = true) := by
            simp only [decide_eq_true_eq]
            exact fun he => hne he.symm
          exact (List.find?_cons_of_neg as hne2).trans h2

/-- C3: after deduplication each canonical identity occurs exactly once
(count 1 when any search result carried it, 0 otherwise), and every kept
record is the first occurrence of its identity in the accumulated
results — shown for the GitHub scanner keyed by `full_name` and for the
GitLab scanner keyed by project id. -/
theorem discovery_dedup_exactly_once (repositories : List RepoInfo)
    (allProjects : List ProjectInfo) :
    (∀ k : String, (uniqueRepos repositories).countP (fun r => decide (r.name = k)) =
      if repositories.any (fun r => decide (r.name = k)) then 1 else 0) ∧
    (∀ r ∈ uniqueRepos repositories,
      repositories.find? (fun y => decide (y.name = r.name)) = some r) ∧
    (∀ i : Option Nat, (uniqueProjects allProjects).countP (fun p => decide (p.projId = i)) =
      if allProjects.any (fun p => decide (p.projId = i)) then 1 else 0) ∧
    (∀ p ∈ uniqueProjects allProjects,
      allProjects.find? (fun y => decide (y.projId = p.projId)) = some p) := by
  refine ⟨?_, ?_, ?_, ?_⟩
  · intro k
    simpa [uniqueRepos] using countP_dedupLoop (fun r : RepoInfo => r.name) k repositories []
  · intro r hr
    exact (find?_of_mem_dedupLoop (fun r : RepoInfo => r.name) repositories [] r hr).2
  · intro i
    simpa [uniqueProjects] using
      countP_dedupLoop (fun p : ProjectInfo => p.projId) i allProjects []
  · intro p hp
    exact (find?_of_mem_dedupLoop (fun p : ProjectInfo => p.projId) allProjects [] p hp).2

/-- A sample discovery result with a duplicated identity: the first and
third records share `full_name` but came from overlapping queries with
different metadata snapshots. -/
def demoRepoA : RepoInfo :=
  { name := "acme/app", stars := 10, cloneUrl := "https://github.com/acme/app.git" }

/-- A second, distinct sample repository. -/
def demoRepoB : RepoInfo :=
  { name := "acme/web", stars := 50, cloneUrl := "https://github.com/acme/web.git" }

/-- A later duplicate of `demoRepoA`: same identity, different stars. -/
def demoRepoA2 : RepoInfo :=
  { name := "acme/app", stars := 99, cloneUrl := "https://github.com/acme/app.git" }

/-- The accumulated search results with the duplicate. -/
def demoRepos : List RepoInfo := [demoRepoA, demoRepoB, demoRepoA2]

/-- C3, witness: on the concrete overlapping result list the duplicated
identity survives exactly once and the kept record is the first
occurrence. -/
theorem discovery_dedup_exactly_once_witness :
    (uniqueRepos demoRepos).countP (fun r => decide (r.name = "acme/app")) =
      (if demoRepos.any (fun r => decide (r.name = "acme/app")) then 1 else 0) ∧
    demoRepos.find? (fun y => decide (y.name = demoRepoA.name)) = some demoRepoA :=
  ⟨(discovery_dedup_exactly_once demoRepos []).1 "acme/app",
   (discovery_dedup_exactly_once demoRepos []).2.1 demoRepoA (by decide)⟩

instance : IsTotal RepoInfo (fun a b => b.stars ≤ a.stars) :=
  ⟨fun a b => Nat.le_total b.stars a.stars⟩

instance : IsTrans RepoInfo (fun a b => b.stars ≤ a.stars) :=
  ⟨fun _ _ _ h1 h2 => le_trans h2 h1⟩

/-- The earlier-discovered of two sample GitLab projects, with 1 star. -/
def demoProjLo : ProjectInfo :=
  { projId := some 1, projName := "acme/quiet", starCount := 1 }

/-- The later-discovered sample GitLab project, with 100 stars. -/
def demoProjHi : ProjectInfo :=
  { projId := some 2, projName := "acme/popular", starCount := 100 }

/-- Two discovered GitLab projects in discovery order. -/
def demoProjects : List ProjectInfo := [demoProjLo, demoProjHi]

/-- C4, counterexample.  The claim says the selected repositories are
the top ones by descending stars whenever that signal is available.
The GitLab records carry `star_count`, yet with budget 1 `run` keeps
the earlier 1-star project and drops the discovered 100-star one:
selection is pure discovery-order truncation (gitlab_scanner.py line
349), not ranked selection. -/
theorem gitlab_ignores_stars_cex :
    projectsToScan demoProjects 1 = [demoProjLo] ∧
    demoProjHi ∈ uniqueProjects demoProjects ∧
    demoProjLo.starCount < demoProjHi.starCount := by decide

/-- C4, amended: the selection never exceeds the scan budget in either
scanner.  The GitHub scanner selects the top repositories by descending
stars — every selected repository has at least as many stars as every
unselected one, the ranking permutes the discovered list, and when the
signal does not discriminate the selection is the discovery-order head.
The GitLab scanner, although its records carry the star signal, ignores
it and truncates the deduplicated list in discovery order. -/
theorem scan_budget_and_ranking (repositories : List RepoInfo)
    (allProjects : List ProjectInfo) (budget : Nat) :
    (topRepos repositories budget).length ≤ budget ∧
    (∀ x ∈ topRepos repositories budget,
      ∀ y ∈ (sortByStars repositories).drop budget, y.stars ≤ x.stars) ∧
    (sortByStars repositories).Perm repositories ∧
    ((∀ r ∈ repositories, ∀ q ∈ repositories, r.stars = q.stars) →
      topRepos repositories budget = repositories.take budget) ∧
    (projectsToScan allProjects budget).length ≤ budget ∧
    (∃ t, projectsToScan allProjects budget ++ t = uniqueProjects allProjects) := by
  refine ⟨List.length_take_le _ _, ?_, List.perm_insertionSort _ _, ?_,
    List.length_take_le _ _,
    ⟨(uniqueProjects allProjects).drop budget, List.take_append_drop _ _⟩⟩
  · intro x hx y hy
    have hs : List.Sorted (fun a b => b.stars ≤ a.stars) (sortByStars repositories) :=
      List.sorted_insertionSort _ _
    exact hs.rel_of_mem_take_of_mem_drop hx hy
  · intro heq
    have hp : List.Pairwise (fun a b => b.stars ≤ a.stars) repositories :=
      List.pairwise_of_forall_mem_list (fun a ha b hb => le_of_eq (heq b hb a ha))
    have hfix : sortByStars repositories = repositories :=
      List.Sorted.insertionSort_eq hp
    simp [topRepos, hfix]

/-- A discovery result whose popularity signal does not discriminate. -/
def demoEqRepos : List RepoInfo :=
  [{ name := "acme/one", stars := 3, cloneUrl := "u1" },
   { name := "acme/two", stars := 3, cloneUrl := "u2" }]

/-- C4, witness: on the concrete three-repository discovery with budget
2, the selection length is within budget, a selected repository
outranks a dropped one, and with equal stars the discovery-order head
is kept. -/
theorem scan_budget_and_ranking_witness :
    (topRepos demoRepos 2).length ≤ 2 ∧
    demoRepoA.stars ≤ demoRepoA2.stars ∧
    topRepos demoEqRepos 1 = demoEqRepos.take 1 := by
  have h := scan_budget_and_ranking demoRepos [] 2
  refine ⟨h.1, ?_, ?_⟩
  · exact h.2.1 demoRepoA2 (by decide) demoRepoA (by decide)
  · exact (scan_budget_and_ranking demoEqRepos [] 1).2.2.2.1 (by decide)

/-- C2, counterexample.  The claim says the clone directory is removed
on every exit path of the scan unit, including early aborts.  When the
`git clone` subprocess fails, `clone_repository` has already created the
directory via `ensure_dir` and returns `None` without removing it, and
`clone_and_analyze_repo` returns the clone-failed dict at once: the
directory is still on disk after the unit finishes. -/
theorem clone_failure_leaves_directory_cex :
    (cloneAndAnalyzeRepo [] demoRepoA CloneOutcome.gitFailure
        (DetectorOutcome.completed []) (DetectorOutcome.completed [])
        (DetectorOutcome.completed [])).2 = [dirName demoRepoA.name] ∧
    (cloneAndAnalyzeRepo [] demoRepoA CloneOutcome.gitFailure
        (DetectorOutcome.completed []) (DetectorOutcome.completed [])
        (DetectorOutcome.completed [])).2 ≠ ([] : List String) := by decide

/-- C2, amended: whenever the shallow clone itself succeeds, the
directory is removed on every exit path of the unit — for every
combination of detector outcomes, including failures — and the disk is
restored exactly; only a failed clone leaves its freshly created
directory behind. -/
theorem clone_dir_removed_after_successful_clone (disk : List String) (repo : RepoInfo)
    (truffleRes gitleaksRes customRes : DetectorOutcome)
    (hfresh : dirName repo.name ∉ disk) :
    (cloneAndAnalyzeRepo disk repo CloneOutcome.ok truffleRes gitleaksRes customRes).2 = disk ∧
    dirName repo.name ∉
      (cloneAndAnalyzeRepo disk repo CloneOutcome.ok truffleRes gitleaksRes customRes).2 ∧
    (cloneAndAnalyzeRepo disk repo CloneOutcome.ok truffleRes gitleaksRes customRes).1.status =
      "completed" := by
  have h1 : cloneRepository disk repo.name CloneOutcome.ok =
      (some (dirName repo.name), dirName repo.name :: disk) := by
    simp [cloneRepository, ensureDir, hfresh]
  have h2 : (cloneAndAnalyzeRepo disk repo CloneOutcome.ok truffleRes gitleaksRes
      customRes).2 = disk := by
    rw [cloneAndAnalyzeRepo, h1]
    simp [List.erase_cons_head]
  refine ⟨h2, by rw [h2]; exact hfresh, ?_⟩
  rw [cloneAndAnalyzeRepo, h1]

/-- C2, witness for the amended theorem: a unit whose trufflehog future
failed still removes its directory and completes. -/
theorem clone_dir_removed_after_successful_clone_witness :
    (cloneAndAnalyzeRepo [] demoRepoA CloneOutcome.ok (DetectorOutcome.failed "timeout")
        (DetectorOutcome.completed [demoTruffleSecret]) (DetectorOutcome.completed [])).2 =
      ([] : List String) ∧
    dirName demoRepoA.name ∉
      (cloneAndAnalyzeRepo [] demoRepoA CloneOutcome.ok (DetectorOutcome.failed "timeout")
        (DetectorOutcome.completed [demoTruffleSecret]) (DetectorOutcome.completed [])).2 ∧
    (cloneAndAnalyzeRepo [] demoRepoA CloneOutcome.ok (DetectorOutcome.failed "timeout")
        (DetectorOutcome.completed [demoTruffleSecret]) (DetectorOutcome.completed [])).1.status =
      "completed" :=
  clone_dir_removed_after_successful_clone [] demoRepoA (DetectorOutcome.failed "timeout")
    (DetectorOutcome.completed [demoTruffleSecret]) (DetectorOutcome.completed [])
    (by decide)

/-- A trufflehog subprocess outcome with a non-zero exit code that still
produced a finding line on stdout. -/
def demoFailProc : ProcResult :=
  { returncode := 1,
    stdoutLines := [ToolLine.record "config/.env" "7" "abc123" "AKIAXXXX" "aws-key"] }

/-- C10, counterexample.  The claim says every external-binary detector
run discards output accompanying a non-zero exit code.  The trufflehog
run of `clone_and_scan_repo` in the reconnaissance module gates parsing
on `if result.stdout:` alone and records findings from a subprocess that
exited 1; the github and gitlab scanner functions discard the same
output. -/
theorem recon_trufflehog_ignores_exit_code_cex :
    reconTrufflehogSecrets "acme/app" demoFailProc ≠ [] ∧
    scanWithTrufflehog true "acme/app" demoFailProc = [] ∧
    gitlabRunTrufflehog "acme/app" demoFailProc = [] := by decide

/-- C10, amended: in `scan_with_trufflehog` and `scan_with_gitleaks` of
the github scanner and `run_trufflehog` of the gitlab scanner, output
accompanying a non-zero exit code is discarded and the detector
contributes an empty list; the reconnaissance-module trufflehog run,
however, parses any non-empty stdout regardless of the exit code. -/
theorem detector_exit_code_gate (available : Bool) (repoName : String) (res : ProcResult)
    (stdout : GitleaksStdout) (hrc : res.returncode ≠ 0) (hne : res.stdoutLines ≠ []) :
    scanWithTrufflehog available repoName res = [] ∧
    scanWithGitleaks available repoName res.returncode stdout = [] ∧
    gitlabRunTrufflehog repoName res = [] ∧
    reconTrufflehogSecrets repoName res =
      reconParseTrufflehogLines repoName res.stdoutLines := by
  refine ⟨?_, ?_, ?_, ?_⟩
  · cases available <;> simp [scanWithTrufflehog, hrc]
  · cases available <;> simp [scanWithGitleaks, hrc]
  · simp [gitlabRunTrufflehog, hrc]
  · simp [reconTrufflehogSecrets, hne]

/-- C10, witness for the amended theorem at the concrete exit-1
subprocess outcome. -/
theorem detector_exit_code_gate_witness :
    scanWithTrufflehog true "acme/app" demoFailProc = [] ∧
    scanWithGitleaks true "acme/app" demoFailProc.returncode GitleaksStdout.emptyOut = [] ∧
    gitlabRunTrufflehog "acme/app" demoFailProc = [] ∧
    reconTrufflehogSecrets "acme/app" demoFailProc =
      reconParseTrufflehogLines "acme/app" demoFailProc.stdoutLines :=
  detector_exit_code_gate true "acme/app" demoFailProc GitleaksStdout.emptyOut
    (by decide) (by decide)

lemma collectSecretsLoop_acc (l : List RepoScanResult) :
    ∀ acc : List Secret, collectSecretsLoop acc l = acc ++ collectSecretsLoop [] l := by
  induction l with
  | nil => intro acc; simp [collectSecretsLoop]
  | cons res rest ih =>
      intro acc
      by_cases h : res.status = "completed"
      · simp only [collectSecretsLoop, if_pos h, List.nil_append]
        rw [ih (acc ++ res.secrets), ih res.secrets]
        simp
      · simp only [collectSecretsLoop, if_neg h]
        exact ih acc

lemma collectSecretsLoop_eq_flatten (results : List RepoScanResult) :
    collectSecretsLoop [] results =
      ((results.filter (fun res => res.status == "completed")).map
        (fun res => res.secrets)).flatten := by
  induction results with
  | nil => simp [collectSecretsLoop]
  | cons res rest ih =>
      by_cases h : res.status = "completed"
      · simp only [collectSecretsLoop, if_pos h]
        rw [collectSecretsLoop_acc]
        simp [List.filter_cons, h, ih]
      · simp only [collectSecretsLoop, if_neg h]
        have hb : (res.status == "completed") = false := by
          simp [h]
        simp [List.filter_cons, hb, ih]

lemma collected_eq_actualFindings (repositories : List RepoInfo) (budget : Nat)
    (outcome : RepoInfo → UnitOutcome) :
    collectSecretsLoop []
        ((topRepos repositories budget).map (fun r => analyzeRepoResult r (outcome r))) =
      actualFindings repositories budget outcome := by
  rw [collectSecretsLoop_eq_flatten, List.filter_map, List.map_map]
  rfl

/-- C8, counterexample.  The claim says the summary counts reflect
actual successes.  With one discovered repository whose clone fails, the
run completes but reports `repos_scanned = 1` while zero repositories
were actually scanned. -/
theorem repos_scanned_counts_failures_cex :
    runRecon [demoRepoA] 1 []
        (fun _ => { clone := CloneOutcome.gitFailure,
                    truffleRes := DetectorOutcome.completed [],
                    gitleaksRes := DetectorOutcome.completed [],
                    customRes := DetectorOutcome.completed [] }) =
      { reposFound := 1, reposScanned := 1, secretsFound := 0 } ∧
    successfulScanCount [demoRepoA] 1
        (fun _ => { clone := CloneOutcome.gitFailure,
                    truffleRes := DetectorOutcome.completed [],
                    gitleaksRes := DetectorOutcome.completed [],
                    customRes := DetectorOutcome.completed [] }) = 0 := by
  decide

/-- Outcome of one `clone_and_scan_repo` unit of the reconnaissance
module (github_scanner.py lines 69-109): the clone and trufflehog
subprocesses complete (yielding the parsed secrets), or one of them
exceeds its timeout and `subprocess.run` raises `TimeoutExpired`, which
the `try`/`finally` of that function does not catch. -/
inductive ReconUnitOutcome where
  | completedUnit (secrets : List Secret)
  | timedOut
deriving DecidableEq

/-- The sequential scan loop of the reconnaissance `run_recon`
(github_scanner.py lines 119-122): no try/except surrounds
`clone_and_scan_repo`, so a raised timeout propagates out of the loop;
`Except.error` models the uncaught exception. -/
def reconScanLoop (outcome : RepoInfo → ReconUnitOutcome) (acc : List Secret) :
    List RepoInfo → Except String (List Secret)
  | [] => Except.ok acc
  | r :: rs =>
    match outcome r with
    | ReconUnitOutcome.timedOut => Except.error "subprocess.TimeoutExpired"
    | ReconUnitOutcome.completedUnit secrets => reconScanLoop outcome (acc ++ secrets) rs

/-- `run_recon` of the reconnaissance module (github_scanner.py lines
111-134): sort the discovered repositories by descending stars, take the
top 10, scan them sequentially, and return the summary — unless a unit
raises, in which case the batch aborts with no summary at all. -/
def reconRunRecon (repositories : List RepoInfo)
    (outcome : RepoInfo → ReconUnitOutcome) : Except String ReconSummary :=
  let top := (sortByStars repositories).take 10
  match reconScanLoop outcome [] top with
  | Except.error e => Except.error e
  | Except.ok allSecrets =>
      Except.ok { reposFound := repositories.length
                  reposScanned := top.length
                  secretsFound := allSecrets.length }

lemma reconScanLoop_error (outcome : RepoInfo → ReconUnitOutcome) :
    ∀ (l : List RepoInfo) (acc : List Secret) (r : RepoInfo), r ∈ l →
      outcome r = ReconUnitOutcome.timedOut →
      reconScanLoop outcome acc l = Except.error "subprocess.TimeoutExpired" := by
  intro l
  induction l with
  | nil => intro acc r hr _; simp at hr
  | cons x xs ih =>
      intro acc r hr ht
      rcases List.mem_cons.mp hr with he | hm
      · subst he
        simp [reconScanLoop, ht]
      · cases hx : outcome x with
        | timedOut => simp [reconScanLoop, hx]
        | completedUnit s =>
            simp only [reconScanLoop, hx]
            exact ih (acc ++ s) r hm ht

/-- C8, amended: the main github.py batch is total and always returns a
summary; `repos_found` is the number of discovered (deduplicated)
repositories and `secrets_found` the number of findings actually
collected from the units whose clone succeeded (plus the optional
org-scan findings), but `repos_scanned` is the number of repositories
selected for scanning — clone failures included — bounded by the scan
budget; a run with zero search results returns all-zero counts without
error.  The reconnaissance-module variant, by contrast, does not always
complete: an uncaught subprocess timeout in any selected unit aborts its
batch with no summary. -/
theorem batch_completes_with_counts (repositories : List RepoInfo) (budget : Nat)
    (orgSecrets : List Secret) (outcome : RepoInfo → UnitOutcome)
    (repositories2 : List RepoInfo) (outcome2 : RepoInfo → ReconUnitOutcome)
    (r : RepoInfo) (hr : r ∈ (sortByStars repositories2).take 10)
    (ht : outcome2 r = ReconUnitOutcome.timedOut) :
    runRecon repositories budget orgSecrets outcome =
      { reposFound := repositories.length
        reposScanned := (topRepos repositories budget).length
        secretsFound :=
          orgSecrets.length + (actualFindings repositories budget outcome).length } ∧
    (runRecon repositories budget orgSecrets outcome).reposScanned ≤ budget ∧
    runRecon [] budget [] outcome =
      { reposFound := 0, reposScanned := 0, secretsFound := 0 } ∧
    reconRunRecon repositories2 outcome2 = Except.error "subprocess.TimeoutExpired" := by
  refine ⟨?_, ?_, ?_, ?_⟩
  · simp only [runRecon, collected_eq_actualFindings, List.length_append]
  · simp only [runRecon]
    exact List.length_take_le _ _
  · simp [runRecon, topRepos, sortByStars, collectSecretsLoop, List.insertionSort]
  · simp only [reconRunRecon,
      reconScanLoop_error outcome2 ((sortByStars repositories2).take 10) [] r hr ht]

/-- A unit whose clone succeeds and whose detectors find nothing. -/
def demoOkUnit : UnitOutcome :=
  { clone := CloneOutcome.ok, truffleRes := DetectorOutcome.completed [],
    gitleaksRes := DetectorOutcome.completed [], customRes := DetectorOutcome.completed [] }

/-- A reconnaissance-module run in which every unit times out. -/
def demoTimeoutOutcome : RepoInfo → ReconUnitOutcome := fun _ => ReconUnitOutcome.timedOut

/-- C8, witness for the amended theorem at concrete runs: a one-repo
github.py batch with a clean unit, the empty batch, and a one-repo
reconnaissance batch aborted by a timeout. -/
theorem batch_completes_with_counts_witness :
    runRecon [demoRepoA] 1 [] (fun _ => demoOkUnit) =
      { reposFound := ([demoRepoA] : List RepoInfo).length
        reposScanned := (topRepos [demoRepoA] 1).length
        secretsFound := ([] : List Secret).length +
          (actualFindings [demoRepoA] 1 (fun _ => demoOkUnit)).length } ∧
    (runRecon [demoRepoA] 1 [] (fun _ => demoOkUnit)).reposScanned ≤ 1 ∧
    runRecon [] 1 [] (fun _ => demoOkUnit) =
      { reposFound := 0, reposScanned := 0, secretsFound := 0 } ∧
    reconRunRecon [demoRepoA] demoTimeoutOutcome =
      Except.error "subprocess.TimeoutExpired" :=
  batch_completes_with_counts [demoRepoA] 1 [] (fun _ => demoOkUnit)
    [demoRepoA] demoTimeoutOutcome demoRepoA (by decide) rfl

lemma pySplitOn_ne_nil (sep : Char) (l : List Char) : pySplitOn sep l ≠ [] := by
  cases l with
  | nil => simp [pySplitOn]
  | cons c cs =>
      by_cases h : c = sep
      · simp [pySplitOn, h]
      · rcases hps : pySplitOn sep cs with _ | ⟨p, ps⟩ <;>
          simp [pySplitOn, h, hps]

lemma pySplitOn_headD (sep : Char) :
    ∀ l : List Char,
      (pySplitOn sep l).headD [] = l.takeWhile (fun c => !(c == sep)) := by
  intro l
  induction l with
  | nil => simp [pySplitOn]
  | cons c cs ih =>
      by_cases h : c = sep
      · subst h
        simp [pySplitOn, List.takeWhile_cons]
      · rcases hps : pySplitOn sep cs with _ | ⟨p, ps⟩
        · exact absurd hps (pySplitOn_ne_nil sep cs)
        · have hip : p = cs.takeWhile (fun c2 => !(c2 == sep)) := by
            rw [hps] at ih
            simpa using ih
          have hb : (!(c == sep)) = true := by simp [h]
          simp [pySplitOn, h, hps, List.takeWhile_cons, hb, hip]

lemma dropWhile_head_false {α : Type} (p : α → Bool) :
    ∀ (l : List α) (a : α) (as : List α), l.dropWhile p = a :: as → p a = false := by
  intro l
  induction l with
  | nil => intro a as hh; simp at hh
  | cons c cs ih =>
      intro a as hh
      by_cases hc : p c = true
      · rw [List.dropWhile_cons_of_pos hc] at hh
        exact ih a as hh
      · rw [List.dropWhile_cons_of_neg hc] at hh
        injection hh with h1 h2
        subst h1
        simpa using hc

lemma searchOrgName_spec (target : List Char) (h : '.' ∈ target) :
    ∃ rest, target = searchOrgName target ++ '.' :: rest ∧
      '.' ∉ searchOrgName target := by
  rw [searchOrgName, if_pos h, pySplitOn_headD]
  have hd : target.dropWhile (fun c => !(c == '.')) ≠ [] := by
    intro hnil
    have hall : target = target.takeWhile (fun c => !(c == '.')) := by
      conv_lhs => rw [← List.takeWhile_append_dropWhile (fun c => !(c == '.')) target]
      rw [hnil, List.append_nil]
    have hmem : '.' ∈ target.takeWhile (fun c => !(c == '.')) := hall ▸ h
    have := List.mem_takeWhile_imp hmem
    simp at this
  rcases hcons : target.dropWhile (fun c => !(c == '.')) with _ | ⟨a, as⟩
  · exact absurd hcons hd
  · have hhead : (!(a == '.')) = false :=
      dropWhile_head_false (fun c => !(c == '.')) target a as hcons
    have ha : a = '.' := by simpa using hhead
    refine ⟨as, ?_, ?_⟩
    · conv_lhs => rw [← List.takeWhile_append_dropWhile (fun c => !(c == '.')) target]
      rw [hcons, ha]
    · intro hmem
      have := List.mem_takeWhile_imp hmem
      simp at this

/-- C9: for a target containing a dot, the name substituted for the
query-template placeholder in `search_repositories` is exactly the
prefix of the target before its first dot — a dot-free string strictly
shorter than the target, never the full target; a dot-free target is
used unchanged; and `scan_with_trufflehog_github_org` applies the
identical truncation to the organization name. -/
theorem target_truncated_before_first_dot (target : List Char) :
    ('.' ∈ target →
      ∃ rest, target = searchOrgName target ++ '.' :: rest ∧
        '.' ∉ searchOrgName target ∧ searchOrgName target ≠ target) ∧
    ('.' ∉ target → searchOrgName target = target) ∧
    truffleOrgName target = searchOrgName target := by
  refine ⟨?_, ?_, rfl⟩
  · intro h
    obtain ⟨rest, heq, hnotin⟩ := searchOrgName_spec target h
    refine ⟨rest, heq, hnotin, ?_⟩
    intro hbad
    rw [hbad] at heq
    have hlen := congrArg List.length heq
    simp at hlen
  · intro h
    simp [searchOrgName, h]

/-- C9, witness: the target `ex.co` truncates to the dot-free proper
prefix `ex`, and the dot-free target `ab` is used unchanged. -/
theorem target_truncated_before_first_dot_witness :
    (∃ rest, ['e', 'x', '.', 'c', 'o'] =
        searchOrgName ['e', 'x', '.', 'c', 'o'] ++ '.' :: rest ∧
      '.' ∉ searchOrgName ['e', 'x', '.', 'c', 'o'] ∧
      searchOrgName ['e', 'x', '.', 'c', 'o'] ≠ ['e', 'x', '.', 'c', 'o']) ∧
    searchOrgName ['a', 'b'] = ['a', 'b'] :=
  ⟨(target_truncated_before_first_dot ['e', 'x', '.', 'c', 'o']).1 (by decide),
   (target_truncated_before_first_dot ['a', 'b']).2.1 (by decide)⟩

end MJSRecon
